import Mathlib

/-!
Verification of the phoenix-channels client (src/client.rs) against its
natural-language specification.  The code under src/ contains only
client.rs; the sibling modules (sender.rs, receiver.rs, error.rs,
message.rs, event.rs) are declared there but their bodies are absent, so
those parts are modelled from the specification text and marked as such
in their doc comments.  Everything taken from client.rs itself follows
the Rust source line by line: transport writes and task scheduling are
the only external effects, and they are made explicit as parameters
(write outcome flags, a channel-closure point, a lock-poisoning flag).
A Rust panic (the unwrap of a poisoned lock) is modelled as the value
none of an Option result.
-/

namespace Phoenix

/-- JSON values (serde_json Value), passed through unchanged by the
protocol layer.  Only the shape needed by the claims is modelled. -/
inductive Value
  | null
  | str (s : String)
  | obj (fields : List (String × Value))

/-- Modelled from the spec: event.rs is not under src/.  EventKind is the
polymorphic tag over join, leave, heartbeat, reply, error and custom
events (spec section 3). -/
inductive EventKind
  | join
  | leave
  | heartbeat
  | reply
  | error
  | custom (s : String)

/-- Modelled from the spec: message.rs is not under src/.  A Message is
one protocol envelope: topic, event, payload and an optional correlation
reference (spec section 3). -/
structure Message where
  topic : String
  event : EventKind
  payload : Value
  msgRef : Option Nat

/-- Modelled from the spec: error.rs is not under src/.  Transport or
upgrade failure during connection establishment (spec section 7). -/
inductive ConnectError
  | transport (msg : String)
deriving DecidableEq

/-- Modelled from the spec: error.rs is not under src/.  A join-specific
write failure, carrying diagnostic context (spec section 7). -/
inductive JoinError
  | write (channel : String)
deriving DecidableEq

/-- Modelled from the spec: error.rs is not under src/.  A decode failure
on one inbound frame, or channel closure (spec section 7). -/
inductive MessageError
  | decode (msg : String)
  | channelClosed

/-- From client.rs line 20: one item of the inbound stream. -/
def MessageResult := Except MessageError Message

/-- From client.rs lines 26-31: the error union of the Client. -/
inductive ClientError
  | Connect (e : ConnectError)
  | Join (e : JoinError)
  | Thread (msg : String)

/-- From client.rs line 23: the protocol version constant. -/
def PHOENIX_VERSION : String := "2.0.0"

/-- From client.rs lines 51-54: the auth parameters folded into one query
component, each pair rendered verbatim as an ampersand, the key, an
equals sign and the value, in caller-supplied order. -/
def paramsUri (params : List (String × String)) : String :=
  params.foldl (fun acc kv => acc ++ "&" ++ kv.1 ++ "=" ++ kv.2) ""

/-- From client.rs line 59: the endpoint string handed to the websocket
client builder. -/
def connectAddr (url : String) (params : List (String × String)) : String :=
  url ++ "/websocket?vsn=" ++ PHOENIX_VERSION ++ paramsUri params

/-- Hex digit for percent-encoding, uppercase. -/
def hexChar (n : Nat) : Char :=
  if n < 10 then Char.ofNat (48 + n) else Char.ofNat (55 + n)

/-- Standard percent-encoding of one ASCII character: unreserved
characters (RFC 3986) pass through, everything else becomes a percent
escape.  Used only to state what URL-encoding would produce; the code in
client.rs performs no such encoding. -/
def percentEncodeChar (c : Char) : String :=
  if c.isAlphanum || c = '-' || c = '.' || c = '_' || c = '~' then
    String.singleton c
  else
    "%" ++ String.singleton (hexChar (c.toNat / 16)) ++
      String.singleton (hexChar (c.toNat % 16))

/-- URL-encoding of a string, character by character. -/
def urlEncode (s : String) : String :=
  String.join (s.data.map percentEncodeChar)

/-- Spec-side rendering of the auth parameters: one segment per pair, in
order, an ampersand then the raw key, an equals sign, the raw value. -/
def renderParams : List (String × String) → String
  | [] => ""
  | kv :: rest => "&" ++ kv.1 ++ "=" ++ kv.2 ++ renderParams rest

/-- Modelled from the spec: sender.rs is not under src/.  The Sender owns
the write half of the connection and the per-connection reference
counter, a monotonically increasing integer stamped onto every outbound
message that expects a reply (spec sections 3 and 4.3).  The written log
records the frames whose underlying write succeeded; swallowed counts the
write failures that send absorbed (logged, not raised). -/
structure Sender where
  refCounter : Nat
  written : List Message
  swallowed : Nat

/-- Modelled from the spec: Sender send is fire-and-forget.  It builds an
envelope with a fresh reference, writes it, and swallows a write failure
(recorded in swallowed) without propagating; the result carries no error
component (spec section 4.3).  The writeOk flag stands for the outcome of
the underlying transport write, which is external. -/
def Sender.send (s : Sender) (topic : String) (event : EventKind)
    (payload : Value) (writeOk : Bool) : Unit × Sender :=
  let r := s.refCounter + 1
  let msg : Message := ⟨topic, event, payload, some r⟩
  if writeOk then
    ((), { s with refCounter := r, written := s.written ++ [msg] })
  else
    ((), { s with refCounter := r, swallowed := s.swallowed + 1 })

/-- Modelled from the spec: heartbeat is send with topic phoenix, the
heartbeat event and an empty payload (spec section 4.3). -/
def Sender.heartbeat (s : Sender) (writeOk : Bool) : Unit × Sender :=
  Sender.send s "phoenix" EventKind.heartbeat (Value.obj []) writeOk

/-- Modelled from the spec: Sender join sends an envelope with the Join
event on the given topic and returns the reference assigned, or JoinError
when the underlying write fails (spec section 4.3).  The reference
counter advances in either case, since the reference is assigned before
the write. -/
def Sender.join (s : Sender) (channel : String) (writeOk : Bool) :
    Except JoinError Nat × Sender :=
  let r := s.refCounter + 1
  let msg : Message := ⟨channel, EventKind.join, Value.obj [], some r⟩
  if writeOk then
    (Except.ok r, { s with refCounter := r, written := s.written ++ [msg] })
  else
    (Except.error (JoinError.write channel), { s with refCounter := r })

/-- A sequence of join calls on one Sender: each call supplies a channel
name and the outcome of its underlying write.  Returns the references of
the successful calls, in call order, with the final Sender state. -/
def Sender.joinSeq : Sender → List (String × Bool) → List Nat × Sender
  | s, [] => ([], s)
  | s, (ch, w) :: rest =>
    let jr := Sender.join s ch w
    let r := Sender.joinSeq jr.2 rest
    match jr.1 with
    | Except.ok n => (n :: r.1, r.2)
    | Except.error _ => r

/-- Modelled from the spec: receiver.rs is not under src/.  The Receiver
owns the read half and yields a lazy, finite-until-connection-closes
sequence of Result items (spec section 4.4); it is modelled as the
sequence of items it will yield before the connection closes. -/
structure Receiver where
  stream : List MessageResult

/-- Modelled from the spec: one blocking pull from the Receiver, yielding
the next item and the rest of the stream, or nothing once the connection
has closed. -/
def Receiver.next (r : Receiver) : Option (MessageResult × Receiver) :=
  match r.stream with
  | [] => none
  | m :: rest => some (m, ⟨rest⟩)

/-- The item sequence of a Receiver, as produced by repeated pulls. -/
def receiverItems : Receiver → List MessageResult
  | ⟨[]⟩ => []
  | ⟨m :: rest⟩ => m :: receiverItems ⟨rest⟩

/-- From client.rs lines 146-157: MessageIterator wraps a Receiver. -/
structure MessageIterator where
  receiver : Receiver

/-- From client.rs lines 152-156. -/
def MessageIterator.new (receiver : Receiver) : MessageIterator :=
  ⟨receiver⟩

/-- From client.rs lines 159-165: next returns the result of the wrapped
Receiver, stated with explicit state passing (the Rust trait method
mutates self in place and returns only the item). -/
def MessageIterator.next (it : MessageIterator) :
    Option (MessageResult × MessageIterator) :=
  match Receiver.next it.receiver with
  | none => none
  | some (m, r) => some (m, ⟨r⟩)

/-- Spec-side reading of the iterator for the refinement claim: the next
item is exactly the result of the Receiver pull, re-wrapped. -/
def iteratorNextSpec (it : MessageIterator) :
    Option (MessageResult × MessageIterator) :=
  Option.map (fun p => (p.1, MessageIterator.new p.2))
    (Receiver.next it.receiver)

/-- The item sequence of a MessageIterator, as produced by repeated next
calls. -/
def iteratorItems : MessageIterator → List MessageResult
  | ⟨⟨[]⟩⟩ => []
  | ⟨⟨m :: rest⟩⟩ => m :: iteratorItems ⟨⟨rest⟩⟩

/-- From client.rs lines 118-129: the body of the delivery task.  It
iterates the MessageIterator; for each item it sends onto the application
delivery channel and exits the loop at the first failed channel send.
The channel consumer is external, so the point at which it closes the
channel is a parameter: cap = some k means the channel accepts k more
sends and every later send fails (the mpsc channel stays closed once
closed); cap = none means the consumer never closes it.  The result is
the list of items actually delivered, in order, and the number of channel
send calls attempted. -/
def processLoop : MessageIterator → Option Nat → List MessageResult × Nat
  | ⟨⟨[]⟩⟩, _ => ([], 0)
  | ⟨⟨_ :: _⟩⟩, some 0 => ([], 1)
  | ⟨⟨m :: rest⟩⟩, some (k + 1) =>
    let p := processLoop ⟨⟨rest⟩⟩ (some k)
    (m :: p.1, p.2 + 1)
  | ⟨⟨m :: rest⟩⟩, none =>
    let p := processLoop ⟨⟨rest⟩⟩ none
    (m :: p.1, p.2 + 1)

/-- From client.rs lines 118-129: the delivery task run on a Receiver,
through MessageIterator new as in the source. -/
def Client.process_messages (receiver : Receiver) (cap : Option Nat) :
    List MessageResult × Nat :=
  processLoop (MessageIterator.new receiver) cap

/-- From client.rs lines 74 and 88: the Sender behind the shared
mutual-exclusion lock.  The poisoned flag is the state of the Mutex:
true once a holder panicked while holding it, and the std Mutex never
clears it. -/
structure SharedSender where
  poisoned : Bool
  sender : Sender

/-- From client.rs lines 102-105: Client send locks the shared Sender
with unwrap, so a poisoned lock panics (none); otherwise it delegates to
Sender send, whose unit result it returns.  The return type of the Rust
method is unit: there is no error component. -/
def Client.send (st : SharedSender) (topic : String) (event : EventKind)
    (message : Value) (writeOk : Bool) : Option (Unit × SharedSender) :=
  if st.poisoned then none
  else
    let r := Sender.send st.sender topic event message writeOk
    some (r.1, { st with sender := r.2 })

/-- From client.rs lines 131-136: Client join matches on the lock result:
a poisoned lock becomes the Thread error with the message from line 134,
otherwise Sender join runs and its JoinError, if any, is converted by the
From impl on lines 39-43 into the Join variant. -/
def Client.join (st : SharedSender) (channel : String) (writeOk : Bool) :
    Except ClientError Nat × SharedSender :=
  if st.poisoned then
    (Except.error
      (ClientError.Thread "Cannot join as sender mutex has been poisoned"),
     st)
  else
    let jr := Sender.join st.sender channel writeOk
    match jr.1 with
    | Except.ok n => (Except.ok n, { st with sender := jr.2 })
    | Except.error e =>
        (Except.error (ClientError.Join e), { st with sender := jr.2 })

/-- Whether a loop iteration ends by continuing or by leaving the loop. -/
inductive LoopControl
  | again
  | leave
deriving DecidableEq

/-- The observable actions of one heartbeat-loop iteration. -/
inductive HbAction
  | sleepSecs (n : Nat)
  | lockSender
  | callHeartbeat
deriving DecidableEq

/-- From client.rs lines 107-116: one iteration of the keepalive loop.
It sleeps two seconds, locks the shared Sender with unwrap (a poisoned
lock panics the thread: none), calls heartbeat, and continues; the loop
body contains no break or return.  The result lists the actions of the
iteration in order, the loop control, and the state after. -/
def keepaliveIter (st : SharedSender) (writeOk : Bool) :
    Option (LoopControl × SharedSender × List HbAction) :=
  if st.poisoned then none
  else
    let r := Sender.heartbeat st.sender writeOk
    some (LoopControl.again, { st with sender := r.2 },
      [HbAction.sleepSecs 2, HbAction.lockSender, HbAction.callHeartbeat])

/-- From client.rs lines 80-100: Client construction.  The connect call
is external transport work, so its result is the parameter; everything
after the question-mark operator on line 84 runs only in the ok case.
The second component counts the background tasks spawned (heartbeat and
delivery); the ok value carries the shared Sender handle (fresh, not
poisoned) and the Receiver handed to the delivery task, standing for the
consumer end of the delivery channel returned to the application. -/
def Client.new (connectResult : Except ConnectError (Sender × Receiver)) :
    Except ClientError (SharedSender × Receiver) × Nat :=
  match connectResult with
  | Except.error e => (Except.error (ClientError.Connect e), 0)
  | Except.ok (s, r) => (Except.ok (⟨false, s⟩, r), 2)

/- ------------------------------------------------------------------ -/
/- Theorems                                                            -/
/- ------------------------------------------------------------------ -/

/-- Helper: the fold in paramsUri, started from any accumulator, appends
the rendered pairs after the accumulator. -/
theorem paramsUri_foldl (params : List (String × String)) :
    ∀ acc : String,
      params.foldl (fun a kv => a ++ "&" ++ kv.1 ++ "=" ++ kv.2) acc =
        acc ++ renderParams params := by
  induction params with
  | nil =>
      intro acc
      simp [renderParams]
  | cons p rest ih =>
      intro acc
      simp only [List.foldl_cons, renderParams]
      rw [ih]
      simp [String.append_assoc]

/-- Helper: paramsUri is the concatenation of the rendered pairs. -/
theorem paramsUri_eq_render (params : List (String × String)) :
    paramsUri params = renderParams params := by
  have h := paramsUri_foldl params ""
  simpa [paramsUri] using h

/-- C2: connect builds the endpoint string as the base url followed by
the literal websocket route and version query using the protocol version
constant 2.0.0, then one ampersand-key-equals-value segment per auth
pair in caller-supplied order with the key and value taken verbatim (no
URL-encoding); in particular the documented concrete example holds
exactly. -/
theorem connect_endpoint_shape :
    (∀ url params, connectAddr url params =
      url ++ "/websocket?vsn=" ++ PHOENIX_VERSION ++ renderParams params) ∧
    connectAddr "wss://host" [("token", "abc")] =
      "wss://host/websocket?vsn=2.0.0&token=abc" := by
  constructor
  · intro url params
    rw [connectAddr, paramsUri_eq_render]
  · decide

/-- C9 counterexample: for the pair ("token", "a b") the code appends the
raw value, not its URL-encoded form, so the endpoint differs from the one
the claim describes (URL-encoding would produce a percent escape for the
space). -/
theorem connect_params_not_urlencoded :
    connectAddr "wss://host" [("token", "a b")] =
        "wss://host/websocket?vsn=2.0.0&token=a b" ∧
    urlEncode "a b" = "a%20b" ∧
    connectAddr "wss://host" [("token", "a b")] ≠
      "wss://host" ++ "/websocket?vsn=" ++ PHOENIX_VERSION ++ "&" ++
        urlEncode "token" ++ "=" ++ urlEncode "a b" := by
  refine ⟨by decide, by decide, by decide⟩

/-- C9 amended: connect appends the fixed websocket route segment and the
version query parameter, then each auth pair in the order supplied, as an
ampersand, the raw key, an equals sign and the raw value, with no
URL-encoding applied at this layer. -/
theorem connect_params_appended_raw (url : String)
    (params : List (String × String)) (k v : String) :
    connectAddr url (params ++ [(k, v)]) =
      connectAddr url params ++ "&" ++ k ++ "=" ++ v := by
  simp only [connectAddr, paramsUri, List.foldl_append]
  rw [paramsUri_foldl [(k, v)]]
  simp [renderParams, String.append_assoc]

/-- Helper: one join call advances the reference counter by exactly one,
whatever the write outcome. -/
theorem Sender.join_refCounter (s : Sender) (ch : String) (w : Bool) :
    (Sender.join s ch w).2.refCounter = s.refCounter + 1 := by
  cases w <;> simp [Sender.join]

/-- Helper: unfolding a join sequence on a successful call. -/
theorem Sender.joinSeq_cons_true (s : Sender) (ch : String)
    (rest : List (String × Bool)) :
    (Sender.joinSeq s ((ch, true) :: rest)).1 =
      (s.refCounter + 1) ::
        (Sender.joinSeq (Sender.join s ch true).2 rest).1 := by
  simp [Sender.joinSeq, Sender.join]

/-- Helper: unfolding a join sequence on a failed call. -/
theorem Sender.joinSeq_cons_false (s : Sender) (ch : String)
    (rest : List (String × Bool)) :
    (Sender.joinSeq s ((ch, false) :: rest)).1 =
      (Sender.joinSeq (Sender.join s ch false).2 rest).1 := by
  simp [Sender.joinSeq, Sender.join]

/-- Helper: every reference returned by a join sequence is strictly above
the counter the sequence started from. -/
theorem Sender.joinSeq_lb :
    ∀ (calls : List (String × Bool)) (s : Sender) (x : Nat),
      x ∈ (Sender.joinSeq s calls).1 → s.refCounter < x := by
  intro calls
  induction calls with
  | nil =>
      intro s x hx
      simp [Sender.joinSeq] at hx
  | cons c rest ih =>
      intro s x hx
      obtain ⟨ch, w⟩ := c
      have hcnt := Sender.join_refCounter s ch w
      cases w with
      | false =>
          rw [Sender.joinSeq_cons_false] at hx
          have := ih _ x hx
          omega
      | true =>
          rw [Sender.joinSeq_cons_true] at hx
          rcases List.mem_cons.mp hx with h | h
          · omega
          · have := ih _ x h
            omega

/-- C1: over every sequence of join calls on a single Sender, the
returned correlation references are strictly increasing in call order and
pairwise distinct, and when every underlying write succeeds each of the N
calls returns a reference, so N references come back. -/
theorem join_refs_distinct_increasing (s : Sender)
    (calls : List (String × Bool)) :
    ((Sender.joinSeq s calls).1).Pairwise (· < ·) ∧
    ((Sender.joinSeq s calls).1).Pairwise (· ≠ ·) ∧
    ((∀ c ∈ calls, c.2 = true) →
      ((Sender.joinSeq s calls).1).length = calls.length) := by
  have main :
      ∀ (cs : List (String × Bool)) (s0 : Sender),
        ((Sender.joinSeq s0 cs).1).Pairwise (· < ·) := by
    intro cs
    induction cs with
    | nil =>
        intro s0
        simp [Sender.joinSeq]
    | cons c rest ih =>
        intro s0
        obtain ⟨ch, w⟩ := c
        cases w with
        | false =>
            rw [Sender.joinSeq_cons_false]
            exact ih _
        | true =>
            rw [Sender.joinSeq_cons_true]
            refine List.pairwise_cons.mpr ⟨?_, ih _⟩
            intro x hx
            have hlb := Sender.joinSeq_lb rest _ x hx
            have hcnt := Sender.join_refCounter s0 ch true
            omega
  have lenall :
      ∀ (cs : List (String × Bool)) (s0 : Sender),
        (∀ c ∈ cs, c.2 = true) →
          ((Sender.joinSeq s0 cs).1).length = cs.length := by
    intro cs
    induction cs with
    | nil =>
        intro s0 _
        simp [Sender.joinSeq]
    | cons c rest ih =>
        intro s0 hall
        obtain ⟨ch, w⟩ := c
        have hw : w = true := hall (ch, w) (List.mem_cons_self _ _)
        subst hw
        rw [Sender.joinSeq_cons_true]
        simp only [List.length_cons]
        rw [ih _ (fun c hc => hall c (List.mem_cons_of_mem _ hc))]
  exact ⟨main calls s, (main calls s).imp (fun h => Nat.ne_of_lt h),
    lenall calls s⟩

/-- C1 witness: a concrete all-successful sequence of two join calls on a
fresh Sender returns two references. -/
theorem join_refs_distinct_increasing_witness :
    ((Sender.joinSeq ⟨0, [], 0⟩ [("a", true), ("b", true)]).1).length = 2 :=
  (join_refs_distinct_increasing ⟨0, [], 0⟩ [("a", true), ("b", true)]).2.2
    (by decide)

/-- C3: Client join has exactly three outcomes: with a poisoned lock it
returns the Thread error; otherwise it returns ok with exactly the
reference Sender join assigned, or the Join wrapping of exactly the
JoinError Sender join failed with. -/
theorem client_join_outcomes (st : SharedSender) (ch : String) (w : Bool) :
    (st.poisoned = true →
      (Client.join st ch w).1 =
        Except.error
          (ClientError.Thread
            "Cannot join as sender mutex has been poisoned")) ∧
    (st.poisoned = false →
      ((∃ n, (Client.join st ch w).1 = Except.ok n ∧
          (Sender.join st.sender ch w).1 = Except.ok n) ∨
       (∃ e, (Client.join st ch w).1 =
            Except.error (ClientError.Join e) ∧
          (Sender.join st.sender ch w).1 = Except.error e))) := by
  obtain ⟨p, s⟩ := st
  constructor
  · intro hp
    subst hp
    rfl
  · intro hp
    subst hp
    cases w with
    | true =>
        left
        exact ⟨s.refCounter + 1, rfl, rfl⟩
    | false =>
        right
        exact ⟨JoinError.write ch, rfl, rfl⟩

/-- C3 witness: joining through a poisoned lock on a concrete state
returns the Thread error. -/
theorem client_join_outcomes_witness :
    (Client.join ⟨true, ⟨0, [], 0⟩⟩ "room" true).1 =
      Except.error
        (ClientError.Thread "Cannot join as sender mutex has been poisoned") :=
  (client_join_outcomes ⟨true, ⟨0, [], 0⟩⟩ "room" true).1 rfl

/-- C4: a send whose underlying write fails still returns unit with no
error outcome (the failure is only recorded as swallowed, standing for
the log entry), and send returns a value for every write outcome, while
a join whose underlying write fails carries the failure in its result as
the Join error. -/
theorem send_best_effort_join_propagates (s : Sender) (topic : String)
    (ev : EventKind) (payload : Value) (ch : String) :
    Client.send ⟨false, s⟩ topic ev payload false =
      some ((), ⟨false,
        { s with refCounter := s.refCounter + 1,
                 swallowed := s.swallowed + 1 }⟩) ∧
    (∀ w : Bool, (Client.send ⟨false, s⟩ topic ev payload w).isSome = true) ∧
    (Client.join ⟨false, s⟩ ch false).1 =
      Except.error (ClientError.Join (JoinError.write ch)) := by
  refine ⟨rfl, ?_, rfl⟩
  intro w
  cases w <;> rfl

/-- C5: when connection establishment fails, Client construction returns
exactly the Connect error, spawns no background task and returns no
delivery channel; an ok value comes back only when connect succeeded,
and then both background tasks are spawned. -/
theorem client_new_outcomes (res : Except ConnectError (Sender × Receiver)) :
    (∀ e, res = Except.error e →
      Client.new res = (Except.error (ClientError.Connect e), 0)) ∧
    (∀ s r, res = Except.ok (s, r) →
      Client.new res = (Except.ok (⟨false, s⟩, r), 2)) ∧
    (∀ c, (Client.new res).1 = Except.ok c →
      ∃ sr, res = Except.ok sr) := by
  refine ⟨?_, ?_, ?_⟩
  · intro e he
    subst he
    rfl
  · intro s r hr
    subst hr
    rfl
  · intro c hc
    cases res with
    | error e =>
        exact absurd hc (by simp [Client.new])
    | ok sr =>
        exact ⟨sr, rfl⟩

/-- C5 witness: a concrete failed connect yields exactly the Connect
error and zero spawned tasks, and a concrete successful connect yields a
client with both tasks spawned. -/
theorem client_new_outcomes_witness :
    Client.new (Except.error (ConnectError.transport "refused")) =
      (Except.error (ClientError.Connect (ConnectError.transport "refused")),
       0) :=
  (client_new_outcomes (Except.error (ConnectError.transport "refused"))).1
    (ConnectError.transport "refused") rfl

/-- Helper: the delivery loop with a never-closing channel forwards the
whole stream, one send per item. -/
theorem processLoop_none (l : List MessageResult) :
    processLoop ⟨⟨l⟩⟩ none = (l, l.length) := by
  induction l with
  | nil => simp [processLoop]
  | cons m rest ih => simp [processLoop, ih]

/-- Helper: the delivery loop with a channel that accepts k sends
delivers exactly the first k items, in order. -/
theorem processLoop_take (l : List MessageResult) :
    ∀ k : Nat, (processLoop ⟨⟨l⟩⟩ (some k)).1 = l.take k := by
  induction l with
  | nil =>
      intro k
      simp [processLoop]
  | cons m rest ih =>
      intro k
      cases k with
      | zero => simp [processLoop]
      | succ k => simp [processLoop, ih k]

/-- Helper: the number of channel sends the delivery loop attempts: one
per item while the channel is open, plus exactly one failing attempt if
the channel closes before the stream ends, and none after that. -/
theorem processLoop_attempts (l : List MessageResult) :
    ∀ k : Nat,
      (k < l.length → (processLoop ⟨⟨l⟩⟩ (some k)).2 = k + 1) ∧
      (l.length ≤ k → (processLoop ⟨⟨l⟩⟩ (some k)).2 = l.length) := by
  induction l with
  | nil =>
      intro k
      refine ⟨?_, ?_⟩
      · intro h
        simp at h
      · intro _
        simp [processLoop]
  | cons m rest ih =>
      intro k
      cases k with
      | zero =>
          refine ⟨?_, ?_⟩
          · intro _
            simp [processLoop]
          · intro h
            simp at h
      | succ k =>
          refine ⟨?_, ?_⟩
          · intro h
            have := (ih k).1 (by simpa using Nat.lt_of_succ_lt_succ h)
            simp [processLoop, this]
          · intro h
            have := (ih k).2 (by simpa using Nat.le_of_succ_le_succ h)
            simp [processLoop, this]

/-- C6: the delivery task republishes the items pulled from the Receiver
onto the application channel in order; with a channel the consumer never
closes it forwards the whole stream with exactly one send per item, and
when the consumer closes the channel after accepting k items the task
delivers exactly the first k items, makes exactly one further (failing)
send attempt, and then stops: no write is attempted after the first
failed one, and the task returns normally. -/
theorem process_messages_delivery (r : Receiver) (k : Nat) :
    (Client.process_messages r none).1 = r.stream ∧
    (Client.process_messages r none).2 = r.stream.length ∧
    (Client.process_messages r (some k)).1 = r.stream.take k ∧
    (k < r.stream.length →
      (Client.process_messages r (some k)).2 = k + 1) ∧
    (r.stream.length ≤ k →
      (Client.process_messages r (some k)).2 = r.stream.length) := by
  obtain ⟨l⟩ := r
  refine ⟨?_, ?_, ?_, ?_, ?_⟩
  · exact congrArg Prod.fst (processLoop_none l)
  · exact congrArg Prod.snd (processLoop_none l)
  · exact processLoop_take l k
  · exact (processLoop_attempts l k).1
  · exact (processLoop_attempts l k).2

/-- C6 witness: on a concrete two-item stream with a channel closed after
one item, the task delivers the first item and attempts exactly two
sends. -/
theorem process_messages_delivery_witness :
    (Client.process_messages
      ⟨[Except.error (MessageError.decode "bad"),
        Except.error (MessageError.decode "worse")]⟩ (some 1)).2 = 2 :=
  (process_messages_delivery
      ⟨[Except.error (MessageError.decode "bad"),
        Except.error (MessageError.decode "worse")]⟩ 1).2.2.2.1
    (by simp)

/-- C7: one iteration of the keepalive loop on an unpoisoned lock does
exactly three things in order: sleep two seconds, lock the shared
Sender, call heartbeat; it then continues the loop, and no iteration
outcome ever leaves the loop (the only non-continuing possibility is the
panic of unwrap on a poisoned lock, which is not a termination branch of
the loop). -/
theorem keepalive_iteration (st : SharedSender) (w : Bool) :
    (st.poisoned = false →
      keepaliveIter st w =
        some (LoopControl.again,
          { st with sender := (Sender.heartbeat st.sender w).2 },
          [HbAction.sleepSecs 2, HbAction.lockSender,
           HbAction.callHeartbeat])) ∧
    (∀ c s2 acts, keepaliveIter st w = some (c, s2, acts) →
      c = LoopControl.again ∧
      acts = [HbAction.sleepSecs 2, HbAction.lockSender,
              HbAction.callHeartbeat]) := by
  obtain ⟨p, s⟩ := st
  constructor
  · intro hp
    subst hp
    rfl
  · intro c s2 acts h
    cases p with
    | true =>
        exact absurd h (by simp [keepaliveIter])
    | false =>
        have hdef : keepaliveIter ⟨false, s⟩ w =
            some (LoopControl.again, ⟨false, (Sender.heartbeat s w).2⟩,
              [HbAction.sleepSecs 2, HbAction.lockSender,
               HbAction.callHeartbeat]) := rfl
        rw [hdef] at h
        simp only [Option.some.injEq, Prod.mk.injEq] at h
        exact ⟨h.1.symm, h.2.2.symm⟩

/-- C7 witness: a concrete unpoisoned iteration performs exactly the
sleep, lock and heartbeat actions and continues the loop. -/
theorem keepalive_iteration_witness :
    keepaliveIter ⟨false, ⟨0, [], 0⟩⟩ true =
      some (LoopControl.again,
        ⟨false, (Sender.heartbeat ⟨0, [], 0⟩ true).2⟩,
        [HbAction.sleepSecs 2, HbAction.lockSender,
         HbAction.callHeartbeat]) :=
  (keepalive_iteration ⟨false, ⟨0, [], 0⟩⟩ true).1 rfl

/-- C8: once the lock is poisoned every use of the Sender through the
Client fails deterministically: join returns the Thread error and leaves
the state unchanged, send panics (none) rather than silently performing
a write, and the keepalive iteration panics too; and no operation ever
clears the poisoned flag. -/
theorem poisoned_lock_fatal (st : SharedSender) (topic : String)
    (ev : EventKind) (payload : Value) (ch : String) (w : Bool) :
    (st.poisoned = true →
      Client.join st ch w =
        (Except.error
          (ClientError.Thread
            "Cannot join as sender mutex has been poisoned"), st) ∧
      Client.send st topic ev payload w = none ∧
      keepaliveIter st w = none) ∧
    ((Client.join st ch w).2.poisoned = st.poisoned) ∧
    (∀ u s2, Client.send st topic ev payload w = some (u, s2) →
      s2.poisoned = st.poisoned) ∧
    (∀ c s2 acts, keepaliveIter st w = some (c, s2, acts) →
      s2.poisoned = st.poisoned) := by
  obtain ⟨p, s⟩ := st
  refine ⟨?_, ?_, ?_, ?_⟩
  · intro hp
    subst hp
    exact ⟨rfl, rfl, rfl⟩
  · cases p with
    | true => rfl
    | false => cases w <;> rfl
  · intro u s2 h
    cases p with
    | true => exact absurd h (by simp [Client.send])
    | false =>
        have hdef : Client.send ⟨false, s⟩ topic ev payload w =
            some ((Sender.send s topic ev payload w).1,
              ⟨false, (Sender.send s topic ev payload w).2⟩) := rfl
        rw [hdef] at h
        simp only [Option.some.injEq, Prod.mk.injEq] at h
        rw [← h.2]
  · intro c s2 acts h
    cases p with
    | true => exact absurd h (by simp [keepaliveIter])
    | false =>
        have hdef : keepaliveIter ⟨false, s⟩ w =
            some (LoopControl.again, ⟨false, (Sender.heartbeat s w).2⟩,
              [HbAction.sleepSecs 2, HbAction.lockSender,
               HbAction.callHeartbeat]) := rfl
        rw [hdef] at h
        simp only [Option.some.injEq, Prod.mk.injEq] at h
        rw [← h.2.1]

/-- C8 witness: on a concrete poisoned state, send panics rather than
writing. -/
theorem poisoned_lock_fatal_witness :
    Client.send ⟨true, ⟨0, [], 0⟩⟩ "t" EventKind.heartbeat Value.null true =
      none :=
  ((poisoned_lock_fatal ⟨true, ⟨0, [], 0⟩⟩ "t" EventKind.heartbeat
      Value.null "room" true).1 rfl).2.1

/-- Helper: the item sequence of a Receiver is its stream. -/
theorem receiverItems_eq (l : List MessageResult) :
    receiverItems ⟨l⟩ = l := by
  induction l with
  | nil => simp [receiverItems]
  | cons m rest ih => simp [receiverItems, ih]

/-- Helper: the item sequence of a MessageIterator is the wrapped
stream. -/
theorem iteratorItems_eq (l : List MessageResult) :
    iteratorItems ⟨⟨l⟩⟩ = l := by
  induction l with
  | nil => simp [iteratorItems]
  | cons m rest ih => simp [iteratorItems, ih]

/-- C10: MessageIterator is a transparent wrapper over the Receiver: next
returns exactly the result of the Receiver pull, the iterator yields the
same item sequence as the Receiver, and the delivery task forwards to the
application channel exactly the Receiver item sequence, element for
element and in order, truncated to the first k items when the consumer
closes the channel after accepting k of them. -/
theorem message_iterator_transparent (r : Receiver) :
    (∀ it : MessageIterator, MessageIterator.next it = iteratorNextSpec it) ∧
    iteratorItems (MessageIterator.new r) = receiverItems r ∧
    (Client.process_messages r none).1 = receiverItems r ∧
    (∀ k : Nat,
      (Client.process_messages r (some k)).1 = (receiverItems r).take k) := by
  obtain ⟨l⟩ := r
  refine ⟨?_, ?_, ?_, ?_⟩
  · intro it
    obtain ⟨⟨s⟩⟩ := it
    cases s <;> rfl
  · rw [receiverItems_eq]
    exact iteratorItems_eq l
  · rw [receiverItems_eq]
    exact congrArg Prod.fst (processLoop_none l)
  · intro k
    rw [receiverItems_eq]
    exact processLoop_take l k

end Phoenix
